import Mathlib

/-!
Shallow embedding of the Prebid.js price-floors module (modules/priceFloors.js):
rule validation and per-auction compilation, candidate-key enumeration and
matching, floor resolution (`getFloor`), bid-response enforcement
(`addBidResponseHook`), the fetch/auction-delay continuation guard, and the
config and fetch update paths.

Modelling conventions: JS numbers are rationals (`ℚ`); JS `undefined` is
`Option.none`; JS objects used as hash maps are association lists in insertion
order (matching `Object.keys` enumeration order for non-index keys); a JS
function that can throw is embedded as an `Option`-returning function with
`none` for the thrown case.
-/

namespace PriceFloors

/-- Lower-casing of a JS string (`String.prototype.toLowerCase`), restricted to
the character-wise case mapping. -/
def jsToLower (s : String) : String := ⟨s.data.map Char.toLower⟩

/-- Upper-casing of a JS string (`String.prototype.toUpperCase`), restricted to
the character-wise case mapping. -/
def jsToUpper (s : String) : String := ⟨s.data.map Char.toUpper⟩

/-- The JS idiom `s || dflt` on strings: `undefined` and the empty string are
falsy and fall through to the default. -/
def jsOrStr (a : Option String) (dflt : String) : String :=
  match a with
  | some s => if s == "" then dflt else s
  | none => dflt

/-- Truthiness of an optional JS string: present and non-empty. -/
def jsTruthyOptStr : Option String → Bool
  | some s => !(s == "")
  | none => false

/-- Scanner for `String.prototype.split` with a non-empty separator: splits at
each non-overlapping separator occurrence, scanning left to right. The fuel is
an upper bound on the number of scanning steps (each consumes at least one
character), so `fuel = length` always suffices. -/
def jsSplitAux (sep : List Char) : Nat → List Char → List Char → List (List Char)
  | _, acc, [] => [acc.reverse]
  | 0, acc, rest => [acc.reverse ++ rest]
  | Nat.succ fuel, acc, c :: rest =>
    if sep.isPrefixOf (c :: rest) then
      acc.reverse :: jsSplitAux sep fuel [] ((c :: rest).drop sep.length)
    else
      jsSplitAux sep fuel (c :: acc) rest

/-- `s.split(sep)` of JS: per-character segments for the empty separator,
otherwise the non-overlapping left-to-right split. -/
def jsSplitStr (s sep : String) : List String :=
  if sep.data.isEmpty then s.data.map (fun c => String.mk [c])
  else (jsSplitAux sep.data s.data.length [] s.data).map String.mk

/-- Number of wildcard characters in a rule key. The JS comparator computes
`key.split(\x27*\x27).length - 1`, which is the occurrence count of the
character `*` in the key. -/
def starCount (s : String) : Nat := s.toList.countP (fun c => c == '*')

/-- One insertion step of the stable sort on wildcard count: the new element is
placed before the first existing element with an equal or larger count, hence
after every earlier element of a strictly smaller count and before every tied
element that was generated later. -/
def insertByStar (a : String) : List String → List String
  | [] => [a]
  | b :: bs => if starCount a ≤ starCount b then a :: b :: bs else b :: insertByStar a bs

/-- Model of `Array.prototype.sort` with the comparator
`(left, right) => (left.split(\x27*\x27).length - 1) - (right.split(\x27*\x27).length - 1)`.
ECMAScript 2019 requires `sort` to be stable, and a stable sort keyed on the
wildcard count is uniquely determined by the input order; it is realised here
as a stable insertion sort. The characterising properties (sortedness,
permutation, and preservation of the input order inside every tie class) are
proved below. -/
def sortByStar : List String → List String
  | [] => []
  | a :: rest => insertByStar a (sortByStar rest)

/-- Comparison relation used by the candidate sort. -/
abbrev StarLE (x y : String) : Prop := starCount x ≤ starCount y

/-! ### Match engine: candidate enumeration and first-match lookup -/

/-- The `size` argument of `getFirstMatchingFloor` and the `size` request
parameter of `getFloor`: either the literal string `"*"`, a `[width, height]`
pair, or absent/unparseable. -/
inductive SizeParam where
  | star
  | dims (w h : Nat)
  | missing
deriving Repr, DecidableEq

/-- Modelled from the spec: `utils.parseGPTSingleSizeArray` (src/utils.js is not
among the reviewed sources) normalises a `[width, height]` pair to a
`"WIDTHxHEIGHT"` string and yields `undefined` for any other input;
`getFirstMatchingFloor` then defaults the `undefined` case to `"*"`. -/
def parseGPTSingleSizeArray : SizeParam → Option String
  | .dims w h => some (toString w ++ "x" ++ toString h)
  | _ => none

/-- The result record of `getFirstMatchingFloor`. -/
structure MatchResult where
  matchingFloor : Option ℚ
  matchingData : Option String
  matchingRule : Option String
deriving Repr, DecidableEq

/-- The per-auction floors data record consumed by the match engine
(`floorData.data` in the source): schema fields and delimiter, table currency,
the compiled rule hash (association list in insertion order), the optional
table default, and the per-input memoisation map `matchingInputs`. -/
structure MatchFloorData where
  fields : List String
  delimiter : Option String
  currency : String
  values : List (String × ℚ)
  defaultFloor : Option ℚ
  matchingInputs : List (String × MatchResult)
deriving Repr, DecidableEq

/-- A bid(-request) object as seen by the match engine and the hooks: the
request identifiers plus the declared media types and the ambient field
resolution (`fieldMatchingFunctions`: adUnitCode, domain, gptSlot and any
publisher-registered custom fields are functions of the bid object and of the
page environment, abstracted as `fieldValue`). -/
structure BidRequestObj where
  bidId : Option String
  bidder : String
  auctionId : String
  mediaTypesKeys : List String
  bannerSizes : Option (List (Nat × Nat))
  videoPlayerSize : Option (List (Nat × Nat))
  nativeImageSizes : Option (Nat × Nat)
  fieldValue : String → String

/-- `enumeratePossibleFieldValues`: for each schema field, the pair of the
exact (lower-cased) context value and the wildcard, except that a context
value that is itself `"*"` contributes only the wildcard option. -/
def enumeratePossibleFieldValues (floorFields : List String) (bidObject : BidRequestObj)
    (mediaType size : String) : List (List String) :=
  floorFields.map (fun field =>
    let exactMatch :=
      if field == "size" then size
      else if field == "mediaType" then mediaType
      else bidObject.fieldValue field
    if exactMatch == "*" then ["*"] else [jsToLower exactMatch, "*"])

/-- The seed-less `Array.prototype.reduce` cartesian expansion inside
`generatePossibleEnumerations`: the first field list is the initial
accumulator, and each further field list multiplies it, joining with the
delimiter. A seed-less reduce throws on an empty array in JS; the only caller
guards on `fieldValues.length`, so the empty case (mapped to `[]` here) is
unreachable. -/
def rawEnumerations (arrayOfFields : List (List String)) (delimiter : String) : List String :=
  match arrayOfFields with
  | [] => []
  | f :: fs => fs.foldl (fun accum currentVal =>
      accum.flatMap (fun obj => currentVal.map (fun obj1 => obj ++ delimiter ++ obj1))) f

/-- `generatePossibleEnumerations`: the cartesian expansion of the per-field
options, sorted by ascending wildcard count with the generation order kept
inside ties (the stable `Array.prototype.sort` on the wildcard-count
comparator). -/
def generatePossibleEnumerations (arrayOfFields : List (List String)) (delimiter : String) :
    List String :=
  sortByStar (rawEnumerations arrayOfFields delimiter)

/-- Key lookup in the compiled rule hash; `isSome` of this is
`values.hasOwnProperty(key)`. -/
def jsHashFind (values : List (String × ℚ)) (key : String) : Option ℚ :=
  (values.find? (fun p => p.1 == key)).map (fun p => p.2)

/-- The JS idiom `x || dflt` on an optional number: `undefined` and `0` are
falsy and fall through to the default. -/
def jsOrQ (a b : Option ℚ) : Option ℚ :=
  match a with
  | some q => if q == 0 then b else some q
  | none => b

/-- Truthiness of an optional JS number: present and non-zero. -/
def qTruthy : Option ℚ → Bool
  | some q => !(q == 0)
  | none => false

/-- `getFirstMatchingFloor`: defaults the media type to `"banner"` and the
parsed size to `"*"`, enumerates the per-field options, consults the
`matchingInputs` memo for the joined exact-value key, otherwise generates the
sorted candidate list and picks the first candidate present in the rule hash;
a missing rule (or a rule with a falsy floor, via `||`) falls back to the
table default. The write-back into the memo is a mutation of the floors-data
record and is not part of the returned value. -/
def getFirstMatchingFloor (floorData : MatchFloorData) (bidObject : BidRequestObj)
    (mediaType0 : Option String) (size0 : SizeParam) : MatchResult :=
  let mediaType := jsOrStr mediaType0 "banner"
  let size := jsOrStr (parseGPTSingleSizeArray size0) "*"
  let fieldValues := enumeratePossibleFieldValues floorData.fields bidObject mediaType size
  if fieldValues.isEmpty then
    { matchingFloor := floorData.defaultFloor, matchingData := none, matchingRule := none }
  else
    let matchingInput := String.intercalate "-" (fieldValues.map (fun f => f.headD ""))
    match (floorData.matchingInputs.find? (fun p => p.1 == matchingInput)).map (fun p => p.2) with
    | some cached => cached
    | none =>
      let allPossibleMatches := generatePossibleEnumerations fieldValues
        (jsOrStr floorData.delimiter "|")
      let matchingRule := allPossibleMatches.find?
        (fun hashValue => (jsHashFind floorData.values hashValue).isSome)
      { matchingFloor := jsOrQ (matchingRule.bind (jsHashFind floorData.values))
          floorData.defaultFloor,
        matchingData := allPossibleMatches.head?,
        matchingRule := matchingRule }

/-! ### Floor resolution: `getFloor` -/

/-- The external capabilities the module consults: the per-bidder
`bidderSettings.<bidder>.bidCpmAdjustment` function (absent for most bidders)
and the currency module conversion `convertCurrency` (with `none` for a thrown
conversion error, including the module being absent). -/
structure FloorEnv where
  bidderAdjustment : String → Option (ℚ → ℚ)
  convertCurrency : ℚ → String → String → Option ℚ

/-- `getBiddersCpmAdjustment`: applies the registered adjustment function when
there is one, otherwise passes the cpm through (`parseFloat` of a number is
the number itself). -/
def getBiddersCpmAdjustment (env : FloorEnv) (bidderName : String) (inputCpm : ℚ) : ℚ :=
  match env.bidderAdjustment bidderName with
  | some adjustmentFunction => adjustmentFunction inputCpm
  | none => inputCpm

/-- `calculateAdjustedFloor(oldFloor, newFloor) = oldFloor / newFloor * oldFloor`. -/
def calculateAdjustedFloor (oldFloor newFloor : ℚ) : ℚ :=
  oldFloor / newFloor * oldFloor

/-- `roundUp(number, precision) = Math.ceil(number * 10^precision) / 10^precision`. -/
def roundUp (number : ℚ) (precision : Nat) : ℚ :=
  (⌈number * (10 : ℚ) ^ precision⌉ : ℚ) / (10 : ℚ) ^ precision

/-- The enforcement flag record; each field is tri-state because the source
reads the flags with `deepAccess` and distinguishes absent from `false`
(`enforceJS !== false`, `floorDeals === true`, truthiness of
`bidAdjustment`). -/
structure Enforcement where
  enforceJS : Option Bool
  enforcePBS : Option Bool
  floorDeals : Option Bool
  bidAdjustment : Option Bool
deriving Repr, DecidableEq

/-- The entry of `_floorDataForAuction` for one auction: the skip flag, the
enforcement flags and the compiled floors data. -/
structure AuctionFloorData where
  skipped : Bool
  enforcement : Enforcement
  data : MatchFloorData
deriving Repr, DecidableEq

/-- The request parameters of `getFloor`. A call without an argument uses the
literal default `{currency: \x27USD\x27, mediaType: \x27*\x27, size: \x27*\x27}`;
a call with a partial object leaves the other keys `undefined`. -/
structure GetFloorParams where
  currency : Option String
  mediaType : Option String
  size : SizeParam
deriving Repr, DecidableEq

/-- The parameter record of a `getFloor()` call with no argument. -/
def defaultGetFloorParams : GetFloorParams :=
  { currency := some "USD", mediaType := some "*", size := SizeParam.star }

/-- The `getMediaTypesSizes` table: declared sizes per media type, used to
specialise a wildcard size request. The `native` entry is the singleton list
holding the (possibly undefined) `mediaTypes.native.image.sizes` value. -/
def getMediaTypesSizes (bid : BidRequestObj) : String → Option (List SizeParam)
  | "banner" => some ((bid.bannerSizes.getD []).map (fun p => SizeParam.dims p.1 p.2))
  | "video" => some ((bid.videoPlayerSize.getD []).map (fun p => SizeParam.dims p.1 p.2))
  | "native" => some [match bid.nativeImageSizes with
      | some p => SizeParam.dims p.1 p.2
      | none => SizeParam.missing]
  | _ => none

/-- The result record of a successful `getFloor` call. -/
structure GetFloorResult where
  floor : ℚ
  currency : String
deriving Repr, DecidableEq

/-- The body of `getFloor` after the skip checks, up to (excluding) the final
round-up: wildcard specialisation of the request parameters from the bid
declared media types, the `getFirstMatchingFloor` lookup, the optional
currency conversion (falling back to the table currency if the conversion
throws), and the optional bidder cpm adjustment through
`calculateAdjustedFloor`. Returns the resolved floor value (still unrounded)
and the result currency. -/
def getFloorPipeline (env : FloorEnv) (floorData : AuctionFloorData) (bid : BidRequestObj)
    (requestParams : GetFloorParams) : Option ℚ × String :=
  let mediaTypesOnBid := bid.mediaTypesKeys
  let mt := if requestParams.mediaType == some "*" && mediaTypesOnBid.length == 1
            then some (mediaTypesOnBid.headD "")
            else requestParams.mediaType
  let szCond :=
    requestParams.size == SizeParam.star
      && (match mt with
          | some m => mediaTypesOnBid.contains m
              && (match getMediaTypesSizes bid m with
                  | some sizes => sizes.length == 1
                  | none => false)
          | none => false)
  let sz := if szCond then
              (match mt with
               | some m => ((getMediaTypesSizes bid m).getD []).headD SizeParam.missing
               | none => requestParams.size)
            else requestParams.size
  let floorInfo := getFirstMatchingFloor floorData.data bid mt sz
  let currency := jsOrStr requestParams.currency floorData.data.currency
  let converted :=
    if qTruthy floorInfo.matchingFloor && !(currency == floorData.data.currency) then
      match env.convertCurrency (floorInfo.matchingFloor.getD 0) floorData.data.currency
          currency with
      | some q => (some q, currency)
      | none => (floorInfo.matchingFloor, floorData.data.currency)
    else (floorInfo.matchingFloor, currency)
  let adjusted :=
    if floorData.enforcement.bidAdjustment == some true && qTruthy converted.1 then
      let cpmAdjustment := getBiddersCpmAdjustment env bid.bidder (converted.1.getD 0)
      if cpmAdjustment == 0 then converted.1
      else some (calculateAdjustedFloor (converted.1.getD 0) cpmAdjustment)
    else converted.1
  (adjusted, converted.2)

/-- `getFloor`: empty result when the auction has no floors data or was
skip-sampled, otherwise the pipeline result rounded up at four decimal places
when the resolved floor is truthy, and the empty result otherwise. -/
def getFloor (env : FloorEnv) (floorDataOpt : Option AuctionFloorData) (bid : BidRequestObj)
    (requestParams : GetFloorParams) : Option GetFloorResult :=
  match floorDataOpt with
  | none => none
  | some floorData =>
    if floorData.skipped then none
    else
      let resolved := getFloorPipeline env floorData bid requestParams
      if qTruthy resolved.1 then
        some { floor := roundUp (resolved.1.getD 0) 4, currency := resolved.2 }
      else none

/-! ### Raw floors documents: validation and per-auction compilation -/

/-- A JS value in the `floor` position of a rule (and similar positions of a
raw, untrusted floors document). `typeof` distinguishes only the number-ness;
`NaN` and the infinities are of number type in JS. -/
inductive JsVal where
  | num (q : ℚ)
  | nan
  | inf
  | negInf
  | str (s : String)
  | boolean (b : Bool)
  | undef
  | objLike
deriving Repr, DecidableEq

/-- `typeof v === \x27number\x27`. -/
def JsVal.isNumberType : JsVal → Bool
  | .num _ => true
  | .nan => true
  | .inf => true
  | .negInf => true
  | _ => false

/-- The raw `schema` object of a floors document; `none` for `fields` covers
both an absent property and a non-array value (`Array.isArray` fails). -/
structure FloorSchema where
  fields : Option (List String)
  delimiter : Option String
deriving Repr, DecidableEq

/-- A raw floors document as supplied via `setConfig`, fetched, or placed on an
ad unit. `values = none` covers an absent or non-object `values` property.
Rule keys are `String` because JS object keys always are. -/
structure FloorsDoc where
  schema : Option FloorSchema
  values : Option (List (String × JsVal))
  currency : Option String
  modelVersion : Option String
deriving Repr, DecidableEq

/-- `utils.deepAccess(floorsData, \x27schema.fields\x27)`. -/
def schemaFields (d : FloorsDoc) : Option (List String) :=
  d.schema.bind (fun s => s.fields)

/-- `floorsData.schema.delimiter` read through the validated schema. -/
def schemaDelimiter (d : FloorsDoc) : Option String :=
  d.schema.bind (fun s => s.delimiter)

/-- The module-level `allowedFields` list in its initial state (publishers can
extend it through `additionalSchemaFields`; the validation functions therefore
take the list as a parameter). -/
def allowedFields : List String := ["gptSlot", "adUnitCode", "size", "domain", "mediaType"]

/-- `validateSchemaFields`: the fields value is an array, non-empty, and every
entry is in the allowed list. -/
def validateSchemaFields (allowed : List String) (fields : Option (List String)) : Bool :=
  match fields with
  | some fs => decide (fs.length > 0) && fs.all (fun f => allowed.contains f)
  | none => false

/-- `isValidRule`: the key (always a string for an object key, so the
`typeof key !== \x27string\x27` branch cannot fire here) splits by the
delimiter into exactly `numFields` segments, and the floor value is of number
type. -/
def isValidRule (key : String) (floor : JsVal) (numFields : Nat) (delimiter : String) : Bool :=
  ((jsSplitStr key delimiter).length == numFields) && floor.isNumberType

/-- `validateRules`: with a non-object `values` the document is invalid; else
every invalid rule is removed from `floorsData.values` in place (returned here
as the updated document), and the result is valid when at least one rule
remains. -/
def validateRules (floorsData : FloorsDoc) (numFields : Nat) (delimiter : String) :
    Bool × FloorsDoc :=
  match floorsData.values with
  | none => (false, floorsData)
  | some vals =>
    let filtered := vals.filter (fun kv => isValidRule kv.1 kv.2 numFields delimiter)
    (decide (filtered.length > 0), { floorsData with values := some filtered })

/-- `isFloorsDataValid`: schema-field validation first (short-circuiting, so an
invalid field list leaves the document untouched), then rule validation (which
filters `values` in place). The pair carries the verdict and the possibly
mutated document. -/
def isFloorsDataValid (allowed : List String) (floorsData : FloorsDoc) : Bool × FloorsDoc :=
  if !(validateSchemaFields allowed (schemaFields floorsData)) then (false, floorsData)
  else validateRules floorsData ((schemaFields floorsData).getD []).length
    (jsOrStr (schemaDelimiter floorsData) "|")

/-- The value stored as `_floorsConfig.data`: a floors document tagged with the
location it came from (`setConfig`, `fetch`, `adUnit`). -/
structure ParsedFloorData where
  doc : FloorsDoc
  location : String
deriving Repr, DecidableEq

/-- `parseFloorData`: `undefined` or a non-object is rejected; a document is
accepted exactly when `isFloorsDataValid` accepts it, and the stored document
is the validated (rule-filtered) one, tagged with the location. -/
def parseFloorData (allowed : List String) (floorsData : Option FloorsDoc) (location : String) :
    Option ParsedFloorData :=
  match floorsData with
  | none => none
  | some d =>
    let v := isFloorsDataValid allowed d
    if v.1 then some { doc := v.2, location := location } else none

/-- The `_floorsConfig.data` update performed by `handleFetchResponse`:
`_floorsConfig.data = parseFloorData(floorResponse, \x27fetch\x27) || _floorsConfig.data`.
The JSON parsing of the response body is external; its result (or the raw
response when parsing throws) is the `fetchResponse` argument. -/
def handleFetchResponseData (allowed : List String) (old : Option ParsedFloorData)
    (fetchResponse : Option FloorsDoc) : Option ParsedFloorData :=
  match parseFloorData allowed fetchResponse "fetch" with
  | some d => some d
  | none => old

/-- The `data` entry built by `handleSetFloorsConfig` via `utils.pick`:
`data => parseFloorData(data, \x27setConfig\x27) || _floorsConfig.data`. -/
def handleSetFloorsConfigData (allowed : List String) (old : Option ParsedFloorData)
    (configData : Option FloorsDoc) : Option ParsedFloorData :=
  match parseFloorData allowed configData "setConfig" with
  | some d => some d
  | none => old

/-- Assignment `rulesHash[key] = v` on a JS object literal built by reduce:
a fresh key is appended in insertion order, an existing key keeps its position
and gets the new value. -/
def jsObjInsert (l : List (String × JsVal)) (key : String) (v : JsVal) :
    List (String × JsVal) :=
  if l.any (fun p => p.1 == key) then l.map (fun p => if p.1 == key then (key, v) else p)
  else l ++ [(key, v)]

/-- Stringification of a possibly undefined value inside a JS template
literal: `undefined` prints as the text `undefined`. -/
def jsTemplateStr (o : Option String) : String := o.getD "undefined"

/-- `normalizeRulesForAuction`: reads the schema fields and delimiter, decides
whether to prepend the `adUnitCode` field (ad-unit scope given and field not
already present — the `unshift` mutation is returned as the new field list),
and rebuilds the `values` hash with the scope-prefixed (only when prepending)
and lower-cased keys. `none` models the `TypeError` thrown when the schema or
its fields (or `values`, for `Object.keys`) are undefined. -/
def normalizeRulesForAuction (floorData : FloorsDoc) (adUnitCode : Option String) :
    Option (List String × List (String × JsVal)) :=
  match floorData.schema with
  | none => none
  | some schema =>
    match schema.fields with
    | none => none
    | some fields =>
      let delimiter := schema.delimiter
      let prependAdUnitCode := jsTruthyOptStr adUnitCode && !(fields.contains "adUnitCode")
      let newFields := if prependAdUnitCode then "adUnitCode" :: fields else fields
      match floorData.values with
      | none => none
      | some vals =>
        let rulesHash := vals.foldl (fun rulesHash kv =>
          let newKey := if prependAdUnitCode
                        then jsTemplateStr adUnitCode ++ jsTemplateStr delimiter ++ kv.1
                        else kv.1
          jsObjInsert rulesHash (jsToLower newKey) kv.2) []
        some (newFields, rulesHash)

/-- `getFloorsDataForAuction`: clones the document, defaults
`schema.delimiter` to `|`, replaces `values` through
`normalizeRulesForAuction` (which may also prepend the `adUnitCode` field),
and defaults the currency to `USD`. `none` models the `TypeError` on an
undefined schema. -/
def getFloorsDataForAuction (floorData : FloorsDoc) (adUnitCode : Option String) :
    Option FloorsDoc :=
  match floorData.schema with
  | none => none
  | some schema =>
    let auctionSchema : FloorSchema :=
      { schema with delimiter := some (jsOrStr schema.delimiter "|") }
    let auctionFloorData : FloorsDoc := { floorData with schema := some auctionSchema }
    match normalizeRulesForAuction auctionFloorData adUnitCode with
    | none => none
    | some res =>
      some { auctionFloorData with
             schema := some { auctionSchema with fields := some res.1 },
             values := some res.2,
             currency := some (jsOrStr floorData.currency "USD") }

/-! ### Enforcement: `addBidResponseHook` -/

/-- The floor metadata written onto a bid response by `addFloorDataToBid`.
`cpmAfterAdjustments = none` models a `NaN` comparison cpm (for instance an
undefined `originalCpm`). -/
structure BidFloorData where
  floorValue : Option ℚ
  floorRule : Option String
  floorCurrency : String
  cpmAfterAdjustments : Option ℚ
  enforcements : Enforcement
  matchedFields : List (String × Option String)
deriving Repr, DecidableEq

/-- A bid response as consumed by `addBidResponseHook`. The copied-but-unused
`getCpmInNewCurrency` function property is carried as an opaque presence
marker. -/
structure BidResponse where
  requestId : Option String
  bidderCode : String
  cpm : ℚ
  currency : Option String
  originalCpm : Option ℚ
  originalCurrency : Option String
  dealId : Option String
  mediaType : Option String
  width : Nat
  height : Nat
  floorData : Option BidFloorData
  status : Option String
  getCpmInNewCurrency : Option Unit
deriving Repr, DecidableEq

/-- `String.prototype.split` with a possibly undefined separator: splitting on
`undefined` returns the whole string as a single segment. -/
def jsSplit (s : String) (separator : Option String) : List String :=
  match separator with
  | none => [s]
  | some sep => jsSplitStr s sep

/-- `addFloorDataToBid`: builds the floor metadata record, decomposing the
exact match key (`floorInfo.matchingData`) by the schema delimiter into the
per-field matched values. `none` models the `TypeError` thrown when
`matchingData` is undefined (only possible with an empty field list). -/
def addFloorDataToBid (floorData : AuctionFloorData) (floorInfo : MatchResult)
    (adjustedCpm : Option ℚ) : Option BidFloorData :=
  match floorInfo.matchingData with
  | none => none
  | some matchingData =>
    let parts := jsSplit matchingData floorData.data.delimiter
    some { floorValue := floorInfo.matchingFloor,
           floorRule := floorInfo.matchingRule,
           floorCurrency := floorData.data.currency,
           cpmAfterAdjustments := adjustedCpm,
           enforcements := floorData.enforcement,
           matchedFields := floorData.data.fields.enum.map (fun p => (p.2, parts.get? p.1)) }

/-- `shouldFloorBid`: `enforceJS !== false`, the (already annotated) comparison
cpm strictly below the matched floor (`NaN` and undefined compare false), and
either `floorDeals === true` or no (truthy) deal id on the bid. -/
def shouldFloorBid (floorData : AuctionFloorData) (floorInfo : MatchResult)
    (bid : BidResponse) : Bool :=
  let enforceJS := !(floorData.enforcement.enforceJS == some false)
  let shouldFloorDeal := floorData.enforcement.floorDeals == some true
    || !(jsTruthyOptStr bid.dealId)
  let bidBelowFloor :=
    match bid.floorData.bind (fun fd => fd.cpmAfterAdjustments), floorInfo.matchingFloor with
    | some c, some f => decide (c < f)
    | _, _ => false
  enforceJS && (bidBelowFloor && shouldFloorDeal)

/-- Modelled from the spec: `createBid` (src/bidfactory.js is not among the
reviewed sources) constructs a fresh zero-cpm no-bid response object derived
from the original bid request, carrying the request identifiers and none of
the pricing, deal or floor information of its own. -/
def createBid (bidRequest : BidRequestObj) : BidResponse :=
  { requestId := bidRequest.bidId, bidderCode := bidRequest.bidder, cpm := 0,
    currency := none, originalCpm := none, originalCurrency := none, dealId := none,
    mediaType := none, width := 0, height := 0, floorData := none, status := none,
    getCpmInNewCurrency := none }

/-- The status tag `CONSTANTS.BID_STATUS.BID_REJECTED` (constants.json is not
among the reviewed sources; the exact string is immaterial). -/
def BID_REJECTED : String := "bidRejected"

/-- The bidder request this hook invocation runs under (`this.bidderRequest`). -/
structure BidderRequest where
  auctionId : String
  bids : List BidRequestObj

/-- The outcome of one `addBidResponseHook` invocation: the next function is
called either with the original (possibly floor-annotated) response or with
the replacement floored response. -/
inductive HookOutcome where
  | forward (bid : BidResponse)
  | reject (bid : BidResponse)
deriving Repr, DecidableEq

/-- The comparison-cpm determination of `addBidResponseHook`: the response cpm
when the response currency (defaulted to USD) matches the floor currency, else
the original cpm when the original currency matches, else the converted cpm.
The outer `none` models the thrown conversion error (missing currency module);
`some none` models a `NaN` comparison cpm (undefined `originalCpm`). -/
def determineBaseCpm (env : FloorEnv) (floorData : AuctionFloorData) (bid : BidResponse) :
    Option (Option ℚ) :=
  let floorCurrency := jsToUpper floorData.data.currency
  let bidResponseCurrency := jsOrStr bid.currency "USD"
  if floorCurrency == jsToUpper bidResponseCurrency then some (some bid.cpm)
  else if jsTruthyOptStr bid.originalCurrency
      && floorCurrency == jsToUpper (bid.originalCurrency.getD "") then
    some bid.originalCpm
  else
    match env.convertCurrency bid.cpm (jsToUpper bidResponseCurrency) floorCurrency with
    | some q => some (some q)
    | none => none

/-- `addBidResponseHook`: passes the response through untouched when there is
no floor data for the auction, the auction was skip-sampled, or no bid request
matches the response; resolves the floor with the actual returned media type
and size; passes through (with a warning) when no floor resolves or the
needed currency conversion throws; otherwise annotates the response and either
forwards it or replaces it by the floored zero-cpm no-bid according to
`shouldFloorBid`. `none` models an exception escaping the hook. The bidder
adjustment of a `NaN` comparison cpm is modelled as `NaN`. -/
def addBidResponseHook (env : FloorEnv) (floorDataOpt : Option AuctionFloorData)
    (bidderRequest : BidderRequest) (bid : BidResponse) : Option HookOutcome :=
  let matchingBidRequest0 := bidderRequest.bids.find? (fun bidRequest =>
    jsTruthyOptStr bidRequest.bidId && bidRequest.bidId == bid.requestId)
  match floorDataOpt, matchingBidRequest0 with
  | none, _ => some (.forward bid)
  | some _, none => some (.forward bid)
  | some floorData, some matchingBidRequest =>
    if floorData.skipped then some (.forward bid)
    else
      let floorInfo := getFirstMatchingFloor floorData.data matchingBidRequest bid.mediaType
        (SizeParam.dims bid.width bid.height)
      if !(qTruthy floorInfo.matchingFloor) then some (.forward bid)
      else
        match determineBaseCpm env floorData bid with
        | none => some (.forward bid)
        | some cpm0 =>
          let adjustedCpm := cpm0.map (fun q => getBiddersCpmAdjustment env bid.bidderCode q)
          match addFloorDataToBid floorData floorInfo adjustedCpm with
          | none => none
          | some floorMeta =>
            let annotatedBid := { bid with floorData := some floorMeta }
            if shouldFloorBid floorData floorInfo annotatedBid then
              let flooredBid := { createBid matchingBidRequest with
                floorData := annotatedBid.floorData,
                width := annotatedBid.width,
                height := annotatedBid.height,
                mediaType := annotatedBid.mediaType,
                currency := annotatedBid.currency,
                originalCpm := annotatedBid.originalCpm,
                originalCurrency := annotatedBid.originalCurrency,
                getCpmInNewCurrency := annotatedBid.getCpmInNewCurrency,
                status := some BID_REJECTED,
                cpm := 0 }
              some (.reject flooredBid)
            else some (.forward annotatedBid)

/-! ### Delay coordination: queued auctions resume exactly once -/

/-- The observable state of one `hookConfig` created by `requestBidsHook`: the
exit guard (the source initialiser writes a field named `haveExited`, so the
`hasExited` field read by `continueAuction` starts out as the falsy
`undefined`), whether the entry is still in `_delayedAuctions`, and how many
times the continuation body (storing `_floorDataForAuction` and calling the
next hook function) has run. -/
structure HookConfig where
  hasExited : Bool
  inDelayedQueue : Bool
  runs : Nat
deriving Repr, DecidableEq

/-- `continueAuction`: under the `hasExited` guard, removes the entry from
`_delayedAuctions`, runs the continuation body once, and sets the guard. -/
def continueAuctionStep (s : HookConfig) : HookConfig :=
  if s.hasExited then s
  else { hasExited := true, inDelayedQueue := false, runs := s.runs + 1 }

/-- The two asynchronous events that can resume a queued auction: the
`auctionDelay` timer firing (its callback calls `continueAuction` directly)
and a fetch completion (`handleFetchResponse` or `handleFetchError` calling
`resumeDelayedAuctions`, which clears the timer and calls `continueAuction`
for exactly the entries still in `_delayedAuctions`). -/
inductive ResumeEvent where
  | timerFire
  | fetchResume
deriving Repr, DecidableEq

/-- One asynchronous event applied to the state of a queued hook. -/
def stepEvent (s : HookConfig) : ResumeEvent → HookConfig
  | .timerFire => continueAuctionStep s
  | .fetchResume => if s.inDelayedQueue then continueAuctionStep s else s

/-- `requestBidsHook`: with a positive `auctionDelay` and an outstanding fetch
the fresh hook config is queued (timer armed, body not yet run); otherwise
`continueAuction` runs synchronously. -/
def requestBidsHook (auctionDelay : Nat) (fetching : Bool) : HookConfig :=
  if decide (auctionDelay > 0) && fetching then
    { hasExited := false, inDelayedQueue := true, runs := 0 }
  else continueAuctionStep { hasExited := false, inDelayedQueue := false, runs := 0 }

/-- Replaying any sequence of resume events on a hook state. -/
def runEvents (s : HookConfig) (events : List ResumeEvent) : HookConfig :=
  events.foldl stepEvent s

/-! ### Derived forms of the match computation (named projections of the
`getFirstMatchingFloor` body, used to state the ordering properties) -/

/-- The per-field option lists `getFirstMatchingFloor` enumerates for a given
floors table and context (after the media-type and size defaulting). -/
def fieldValuesOf (fd : MatchFloorData) (bidObject : BidRequestObj)
    (mediaType0 : Option String) (size0 : SizeParam) : List (List String) :=
  enumeratePossibleFieldValues fd.fields bidObject (jsOrStr mediaType0 "banner")
    (jsOrStr (parseGPTSingleSizeArray size0) "*")

/-- The sorted candidate-key list `getFirstMatchingFloor` generates. -/
def matchCandidates (fd : MatchFloorData) (bidObject : BidRequestObj)
    (mediaType0 : Option String) (size0 : SizeParam) : List String :=
  generatePossibleEnumerations (fieldValuesOf fd bidObject mediaType0 size0)
    (jsOrStr fd.delimiter "|")

/-- The first candidate present in the rule hash. -/
def ruleFound (fd : MatchFloorData) (bidObject : BidRequestObj)
    (mediaType0 : Option String) (size0 : SizeParam) : Option String :=
  (matchCandidates fd bidObject mediaType0 size0).find?
    (fun hashValue => (jsHashFind fd.values hashValue).isSome)

/-- The floor resolution `addBidResponseHook` performs for a bid response:
the matched rule for the actual returned media type and size, against the
matching original bid request. -/
def responseFloorInfo (fd : AuctionFloorData) (req : BidRequestObj) (bid : BidResponse) :
    MatchResult :=
  getFirstMatchingFloor fd.data req bid.mediaType (SizeParam.dims bid.width bid.height)

/-! ### Concrete data used by the counterexamples and witnesses -/

/-- A sample bid request in ad unit `test_div_1`. -/
def sampleBid : BidRequestObj :=
  { bidId := some "1111", bidder := "appnexus", auctionId := "123456",
    mediaTypesKeys := [], bannerSizes := none, videoPlayerSize := none,
    nativeImageSizes := none,
    fieldValue := fun f => if f == "adUnitCode" then "test_div_1" else "" }

/-- An environment with no bidder adjustments and no currency module. -/
def plainEnv : FloorEnv :=
  { bidderAdjustment := fun _ => none, convertCurrency := fun _ _ _ => none }

/-- An environment registering the linear adjustment `cpm => 3 * cpm` for the
sample bidder. -/
def adjTimes3Env : FloorEnv :=
  { bidderAdjustment := fun b => if b == "appnexus" then some (fun q => 3 * q) else none,
    convertCurrency := fun _ _ _ => none }

/-- Enforcement flags as `handleSetFloorsConfig` defaults them. -/
def defaultEnforcement : Enforcement :=
  { enforceJS := some true, enforcePBS := some false,
    floorDeals := some false, bidAdjustment := some true }

/-- A one-field media-type table with the single catch-all rule of floor 1. -/
def starOneFD : AuctionFloorData :=
  { skipped := false, enforcement := defaultEnforcement,
    data := { fields := ["mediaType"], delimiter := some "|", currency := "USD",
              values := [("*", 1)], defaultFloor := none, matchingInputs := [] } }

/-- A table whose banner rule has the floor 3 and no adjustment flag. -/
def bannerThreeFD : AuctionFloorData :=
  { skipped := false,
    enforcement := { enforceJS := some true, enforcePBS := some false,
                     floorDeals := some false, bidAdjustment := some false },
    data := { fields := ["mediaType"], delimiter := some "|", currency := "USD",
              values := [("banner", 3)], defaultFloor := none,
              matchingInputs := [] } }

/-- Request parameters asking for the banner floor in USD. -/
def bannerParams : GetFloorParams :=
  { currency := some "USD", mediaType := some "banner", size := SizeParam.star }

/-- Request parameters asking for the banner floor at size 300x250 in USD. -/
def bannerSizedParams : GetFloorParams :=
  { currency := some "USD", mediaType := some "banner", size := SizeParam.dims 300 250 }

/-- A table whose most specific matching rule has the floor value `0` and
which has a table default: the rule is found, but the `||` fallback returns
the default. -/
def zeroRuleDefaultFD : MatchFloorData :=
  { fields := ["mediaType"], delimiter := some "|", currency := "USD",
    values := [("banner", 0)], defaultFloor := some 5, matchingInputs := [] }

/-- A table whose most specific matching rule has the floor value `0` and no
default. -/
def zeroRuleNoDefaultFD : AuctionFloorData :=
  { skipped := false, enforcement := defaultEnforcement,
    data := { fields := ["mediaType"], delimiter := some "|", currency := "USD",
              values := [("banner", 0)], defaultFloor := none, matchingInputs := [] } }

/-- The floors document of the ad-unit-scoping example in the specification. -/
def specScopingDoc : FloorsDoc :=
  { schema := some { fields := some ["mediaType"], delimiter := some "|" },
    values := some [("banner", JsVal.num 1)],
    currency := some "USD", modelVersion := none }

/-- A document that already lists `adUnitCode` among its schema fields, with a
rule key naming a different ad unit. -/
def adUnitFieldDoc : FloorsDoc :=
  { schema := some { fields := some ["adUnitCode"], delimiter := none },
    values := some [("div2", JsVal.num 1)], currency := none, modelVersion := none }

/-- A document whose only rule maps to `Infinity`. -/
def infinityRuleDoc : FloorsDoc :=
  { schema := some { fields := some ["mediaType"], delimiter := none },
    values := some [("banner", JsVal.inf)], currency := none, modelVersion := none }

/-- A document with an unknown schema field and a values map holding one valid
and one invalid rule. -/
def badSchemaMixedRulesDoc : FloorsDoc :=
  { schema := some { fields := some ["notAllowedField"], delimiter := none },
    values := some [("x", JsVal.num 1), ("y", JsVal.str "bad")],
    currency := none, modelVersion := none }

/-- A document with a valid schema and a values map holding one valid and one
invalid rule. -/
def goodSchemaMixedRulesDoc : FloorsDoc :=
  { schema := some { fields := some ["mediaType"], delimiter := some "|" },
    values := some [("banner", JsVal.num 1), ("bad|key", JsVal.num 2)],
    currency := none, modelVersion := none }

/-- A document rejected by validation (no schema at all). -/
def noSchemaDoc : FloorsDoc :=
  { schema := none, values := some [("banner", JsVal.num 1)],
    currency := none, modelVersion := none }

/-- A previously active floors configuration. -/
def previousParsedData : ParsedFloorData :=
  { doc := specScopingDoc, location := "setConfig" }

/-- The acceptance condition for a floors document exactly as the
specification words it (spec-side definition, for comparison with
`isFloorsDataValid`): fields non-empty and drawn from the allowed set, and at
least one rule whose key splits into `fields.length` segments and whose value
is a finite number. -/
def specFloorsDocAccepted (allowed : List String) (d : FloorsDoc) : Bool :=
  match schemaFields d with
  | some fs => decide (fs.length > 0) && fs.all (fun f => allowed.contains f)
      && (match d.values with
          | some vals => vals.any (fun kv =>
              ((jsSplitStr kv.1 (jsOrStr (schemaDelimiter d) "|")).length == fs.length)
              && (match kv.2 with | .num _ => true | _ => false))
          | none => false)
  | none => false

/-- The bidder request and bid response of the enforcement example: a bid of
cpm `0.5` for ad unit `test_div_1`. -/
def sampleBidderRequest : BidderRequest :=
  { auctionId := "123456", bids := [sampleBid] }

/-- A banner bid response of cpm `0.5` with no deal id. -/
def halfCpmBid : BidResponse :=
  { requestId := some "1111", bidderCode := "appnexus", cpm := 1 / 2,
    currency := some "USD", originalCpm := none, originalCurrency := none,
    dealId := none, mediaType := some "banner", width := 300, height := 250,
    floorData := none, status := none, getCpmInNewCurrency := none }

/-- A floors table for the enforcement example: banner floor 1. -/
def bannerOneFD : AuctionFloorData :=
  { skipped := false, enforcement := defaultEnforcement,
    data := { fields := ["mediaType"], delimiter := some "|", currency := "USD",
              values := [("banner", 1)], defaultFloor := none, matchingInputs := [] } }

/-! ### Theorems -/

theorem mem_insertByStar {a y : String} {l : List String} :
    y ∈ insertByStar a l ↔ y = a ∨ y ∈ l := by
  induction l with
  | nil => simp [insertByStar]
  | cons b bs ih =>
    simp only [insertByStar]
    split
    · simp [List.mem_cons]
    · simp only [List.mem_cons, ih]
      tauto

theorem insertByStar_perm (a : String) (l : List String) :
    List.Perm (insertByStar a l) (a :: l) := by
  induction l with
  | nil => simp [insertByStar]
  | cons b bs ih =>
    simp only [insertByStar]
    split
    · exact List.Perm.refl _
    · exact (ih.cons b).trans (List.Perm.swap a b bs)

theorem sortByStar_perm (l : List String) : List.Perm (sortByStar l) l := by
  induction l with
  | nil => exact List.Perm.refl _
  | cons a rest ih => exact (insertByStar_perm a (sortByStar rest)).trans (ih.cons a)

theorem pairwise_insertByStar {a : String} {l : List String}
    (h : l.Pairwise StarLE) : (insertByStar a l).Pairwise StarLE := by
  induction l with
  | nil => simp [insertByStar]
  | cons b bs ih =>
    rcases List.pairwise_cons.mp h with ⟨hb, hbs⟩
    simp only [insertByStar]
    split
    · rename_i hab
      refine List.pairwise_cons.mpr ⟨?_, h⟩
      intro y hy
      rcases List.mem_cons.mp hy with rfl | hy
      · exact hab
      · exact Nat.le_trans hab (hb y hy)
    · rename_i hab
      refine List.pairwise_cons.mpr ⟨?_, ih hbs⟩
      intro y hy
      rcases mem_insertByStar.mp hy with rfl | hy
      · exact Nat.le_of_lt (Nat.lt_of_not_le hab)
      · exact hb y hy

theorem pairwise_sortByStar (l : List String) : (sortByStar l).Pairwise StarLE := by
  induction l with
  | nil => simp [sortByStar]
  | cons a rest ih => exact pairwise_insertByStar ih

theorem filter_star_insertByStar (a : String) (l : List String) (k : Nat) :
    (insertByStar a l).filter (fun s => starCount s == k) =
      (a :: l).filter (fun s => starCount s == k) := by
  induction l with
  | nil => simp [insertByStar]
  | cons b bs ih =>
    simp only [insertByStar]
    split
    · rfl
    · rename_i hab
      by_cases hpa : starCount a = k
      · have hpb : (starCount b == k) = false := by
          have hlt : starCount b < starCount a := Nat.lt_of_not_le hab
          simp only [beq_eq_false_iff_ne, ne_eq]
          omega
        simp [List.filter_cons, hpa, hpb, ih]
      · have hpa' : (starCount a == k) = false := by
          simp only [beq_eq_false_iff_ne, ne_eq]
          exact hpa
        simp [List.filter_cons, hpa', ih]

/-- Stability of the candidate sort: inside every wildcard-count class the
output order equals the input (generation) order. -/
theorem filter_star_sortByStar (l : List String) (k : Nat) :
    (sortByStar l).filter (fun s => starCount s == k) =
      l.filter (fun s => starCount s == k) := by
  induction l with
  | nil => rfl
  | cons a rest ih =>
    rw [sortByStar, filter_star_insertByStar]
    simp only [List.filter_cons]
    rw [ih]

/-- On a list sorted by wildcard count, the first element satisfying a
predicate has a count no larger than any element of the list satisfying it. -/
theorem find?_starCount_min {p : String → Bool} {l : List String} {x : String}
    (hs : l.Pairwise StarLE) (hf : l.find? p = some x) :
    ∀ y ∈ l, p y = true → starCount x ≤ starCount y := by
  induction l with
  | nil => simp at hf
  | cons a rest ih =>
    rcases List.pairwise_cons.mp hs with ⟨ha, hrest⟩
    by_cases hpa : p a
    · rw [List.find?_cons_of_pos _ hpa, Option.some_inj] at hf
      subst hf
      intro y hy _
      rcases List.mem_cons.mp hy with rfl | hy
      · exact Nat.le_refl _
      · exact ha y hy
    · rw [List.find?_cons_of_neg _ hpa] at hf
      intro y hy hpy
      rcases List.mem_cons.mp hy with rfl | hy
      · rw [hpy] at hpa
        exact absurd rfl hpa
      · exact ih hrest hf y hy hpy


theorem stepEvent_fixed {s : HookConfig} (h1 : s.hasExited = true)
    (h2 : s.inDelayedQueue = false) (e : ResumeEvent) : stepEvent s e = s := by
  cases e <;> simp [stepEvent, continueAuctionStep, h1, h2]

theorem runEvents_fixed {s : HookConfig} (h1 : s.hasExited = true)
    (h2 : s.inDelayedQueue = false) (events : List ResumeEvent) :
    runEvents s events = s := by
  induction events with
  | nil => rfl
  | cons e rest ih =>
    rw [runEvents, List.foldl_cons, stepEvent_fixed h1 h2]
    exact ih

theorem runEvents_queued_cons (e : ResumeEvent) (rest : List ResumeEvent) :
    runEvents { hasExited := false, inDelayedQueue := true, runs := 0 } (e :: rest)
      = { hasExited := true, inDelayedQueue := false, runs := 1 } := by
  have hstep : stepEvent { hasExited := false, inDelayedQueue := true, runs := 0 } e
      = { hasExited := true, inDelayedQueue := false, runs := 1 } := by
    cases e <;> simp [stepEvent, continueAuctionStep]
  rw [runEvents, List.foldl_cons, hstep]
  exact runEvents_fixed rfl rfl rest

/-- C3: an auction queued by `requestBidsHook` while a fetch is outstanding and
`auctionDelay` is positive has its continuation body run exactly once however
the `auctionDelay` timer firing and the fetch success or error resume
interleave or repeat — and never more than once over any event sequence: the
`hasExited` guard and the removal of the entry from `_delayedAuctions` make a
second invocation impossible. -/
theorem c3_delayedContinuationRunsExactlyOnce (auctionDelay : Nat)
    (hdelay : 0 < auctionDelay) (events : List ResumeEvent) (hne : events ≠ []) :
    (runEvents (requestBidsHook auctionDelay true) events).runs = 1
    ∧ ∀ prior : List ResumeEvent,
        (runEvents (requestBidsHook auctionDelay true) prior).runs ≤ 1 := by
  have hinit : requestBidsHook auctionDelay true
      = { hasExited := false, inDelayedQueue := true, runs := 0 } := by
    simp [requestBidsHook, hdelay]
  rw [hinit]
  constructor
  · cases events with
    | nil => exact absurd rfl hne
    | cons e rest => rw [runEvents_queued_cons]
  · intro prior
    cases prior with
    | nil => simp [runEvents]
    | cons e rest => rw [runEvents_queued_cons]

/-- C3 witness: an auction with a 250 ms delay, resumed by the fetch and with
the timer event arriving afterwards anyway, runs exactly once. -/
theorem c3_witness :
    0 < 250
    ∧ ([ResumeEvent.fetchResume, ResumeEvent.timerFire] ≠ ([] : List ResumeEvent))
    ∧ (runEvents (requestBidsHook 250 true)
        [ResumeEvent.fetchResume, ResumeEvent.timerFire]).runs = 1 :=
  ⟨by decide, by decide,
    (c3_delayedContinuationRunsExactlyOnce 250 (by decide)
      [ResumeEvent.fetchResume, ResumeEvent.timerFire] (by decide)).1⟩

/-- C4 counterexample: with the linear adjustment `g(x) = 3x`, a matched floor
of 1 and the `bidAdjustment` flag on, `getFloor` returns `0.3334` (the
four-decimal round-up of `1/3`), and `g(0.3334) = 1.0002 ≠ 1` — the value
`getFloor` returns is not the exact pre-adjustment floor, because of the final
round-up. -/
theorem c4_counterexample :
    getFloor adjTimes3Env (some starOneFD) sampleBid defaultGetFloorParams
      = some { floor := 1667 / 5000, currency := "USD" }
    ∧ (3 : ℚ) * (1667 / 5000) ≠ 1 := by
  constructor
  · have hpipe : getFloorPipeline adjTimes3Env starOneFD sampleBid defaultGetFloorParams
        = (some (calculateAdjustedFloor 1 (3 * 1)), "USD") := by
      norm_num [getFloorPipeline, starOneFD, adjTimes3Env, sampleBid,
        defaultGetFloorParams, getFirstMatchingFloor, enumeratePossibleFieldValues,
        jsOrStr, parseGPTSingleSizeArray, getMediaTypesSizes, qTruthy, jsOrQ,
        generatePossibleEnumerations, rawEnumerations, sortByStar, insertByStar,
        starCount, jsHashFind, jsToLower, getBiddersCpmAdjustment, defaultEnforcement]
    have hval : calculateAdjustedFloor 1 (3 * 1) = 1 / 3 := by
      rw [calculateAdjustedFloor]
      norm_num
    have hskip : starOneFD.skipped = false := rfl
    have e1 : (⌈(1 / 3 : ℚ) * 10 ^ 4⌉ : ℤ) = 3334 := by
      rw [Int.ceil_eq_iff]
      constructor <;> norm_num
    have htr : qTruthy (some (1 / 3 : ℚ)) = true := by
      norm_num [qTruthy]
    simp only [getFloor, hskip, Bool.false_eq_true, if_false, hpipe, hval, htr, if_true,
      Option.getD_some]
    rw [roundUp, e1]
    norm_num
  · norm_num

/-- C4 (amended): `calculateAdjustedFloor(floor, adjusted)` returns
`floor / adjusted * floor`, and for every linear origin-passing adjustment
`g(x) = c·x` with `c ≠ 0` and every positive floor `f`, applying `g` to
`calculateAdjustedFloor(f, g(f))` yields exactly `f` — so the adjusted floor
`getFloor` computes before the final four-decimal round-up is the exact
pre-adjustment floor that maps to `f` post-adjustment. -/
theorem c4_adjustedFloorAlgebraicInverse :
    (∀ oldFloor newFloor : ℚ,
        calculateAdjustedFloor oldFloor newFloor = oldFloor / newFloor * oldFloor)
    ∧ ∀ c f : ℚ, c ≠ 0 → 0 < f → c * calculateAdjustedFloor f (c * f) = f := by
  refine ⟨fun _ _ => rfl, fun c f hc hf => ?_⟩
  have hf0 : f ≠ 0 := ne_of_gt hf
  unfold calculateAdjustedFloor
  field_simp
  ring

/-- C4 witness: the inverse property at `c = 3`, `f = 1`. -/
theorem c4_witness :
    ((3 : ℚ) ≠ 0) ∧ ((0 : ℚ) < 1)
    ∧ (3 : ℚ) * calculateAdjustedFloor 1 (3 * 1) = 1 :=
  ⟨by norm_num, by norm_num,
    c4_adjustedFloorAlgebraicInverse.2 3 1 (by norm_num) (by norm_num)⟩

/-- C5: whenever the resolution pipeline of `getFloor` yields a (truthy)
resolved floor `v`, the returned floor is `roundUp v 4 = ⌈v·10^4⌉ / 10^4` —
at least `v` (never rounded down), within `10^(-4)` above it, and an integer
multiple of `10^(-4)`; in particular `1.777777` rounds to `1.7778` and
`1.1111111` to `1.1112`. -/
theorem c5_floorRoundedUpFourDecimals :
    (∀ (env : FloorEnv) (floorData : AuctionFloorData) (bid : BidRequestObj)
        (requestParams : GetFloorParams) (v : ℚ),
        (getFloorPipeline env floorData bid requestParams).1 = some v → v ≠ 0 →
        floorData.skipped = false →
        getFloor env (some floorData) bid requestParams
            = some { floor := roundUp v 4,
                     currency := (getFloorPipeline env floorData bid requestParams).2 }
          ∧ roundUp v 4 = (⌈v * 10 ^ 4⌉ : ℚ) / 10 ^ 4
          ∧ v ≤ roundUp v 4
          ∧ roundUp v 4 - v < 1 / 10 ^ 4
          ∧ ∃ n : ℤ, roundUp v 4 = (n : ℚ) / 10 ^ 4)
    ∧ roundUp (1777777 / 1000000) 4 = 17778 / 10000
    ∧ roundUp (11111111 / 10000000) 4 = 11112 / 10000 := by
  have hpow : (0 : ℚ) < 10 ^ 4 := by norm_num
  refine ⟨fun env floorData bid requestParams v hv hv0 hskip => ?_, ?_, ?_⟩
  · refine ⟨?_, rfl, ?_, ?_, ⟨⌈v * 10 ^ 4⌉, rfl⟩⟩
    · simp only [getFloor, hskip, if_false, Bool.false_eq_true]
      rw [hv]
      simp [qTruthy, hv0]
    · rw [roundUp, le_div_iff₀ hpow]
      exact Int.le_ceil _
    · rw [roundUp, sub_lt_iff_lt_add, div_lt_iff₀ hpow]
      have h3 := Int.ceil_lt_add_one (v * (10 : ℚ) ^ 4)
      calc (⌈v * (10 : ℚ) ^ 4⌉ : ℚ) < v * 10 ^ 4 + 1 := h3
        _ = (1 / 10 ^ 4 + v) * 10 ^ 4 := by
              field_simp
              ring
  · have e1 : (⌈(1777777 / 1000000 : ℚ) * 10 ^ 4⌉ : ℤ) = 17778 := by
      rw [Int.ceil_eq_iff]
      constructor <;> norm_num
    rw [roundUp, e1]
    norm_num
  · have e2 : (⌈(11111111 / 10000000 : ℚ) * 10 ^ 4⌉ : ℤ) = 11112 := by
      rw [Int.ceil_eq_iff]
      constructor <;> norm_num
    rw [roundUp, e2]
    norm_num

/-- C5 witness: a table whose banner floor is 3 resolves through `getFloor` to
the round-up of 3. -/
theorem c5_witness :
    (getFloorPipeline plainEnv bannerThreeFD sampleBid bannerParams).1 = some 3
    ∧ ((3 : ℚ)) ≠ 0
    ∧ bannerThreeFD.skipped = false
    ∧ getFloor plainEnv (some bannerThreeFD) sampleBid bannerParams
        = some { floor := roundUp 3 4,
                 currency := (getFloorPipeline plainEnv bannerThreeFD sampleBid bannerParams).2 } := by
  have hpipe : (getFloorPipeline plainEnv bannerThreeFD sampleBid bannerParams).1
      = some 3 := by
    simp [getFloorPipeline, bannerThreeFD, plainEnv, sampleBid, bannerParams,
      getFirstMatchingFloor, enumeratePossibleFieldValues, jsOrStr,
      parseGPTSingleSizeArray, getMediaTypesSizes, qTruthy, jsOrQ,
      generatePossibleEnumerations, rawEnumerations, sortByStar, insertByStar,
      starCount, jsHashFind, jsToLower, getBiddersCpmAdjustment]
  exact ⟨hpipe, by norm_num, rfl,
    (c5_floorRoundedUpFourDecimals.1 plainEnv bannerThreeFD sampleBid bannerParams
      3 hpipe (by norm_num) rfl).1⟩

/-- C6: a floors document failing validation (or an absent document) never
disturbs the previously active `_floorsConfig.data`, on the `setConfig` path
and on the fetch path alike: only a document passing `isFloorsDataValid` ever
replaces it. -/
theorem c6_invalidDataLeavesPreviousData (allowed : List String)
    (old : Option ParsedFloorData) (d : FloorsDoc)
    (hbad : (isFloorsDataValid allowed d).1 = false) :
    handleSetFloorsConfigData allowed old (some d) = old
    ∧ handleFetchResponseData allowed old (some d) = old
    ∧ handleSetFloorsConfigData allowed old none = old
    ∧ handleFetchResponseData allowed old none = old := by
  refine ⟨?_, ?_, rfl, rfl⟩ <;>
    simp [handleSetFloorsConfigData, handleFetchResponseData, parseFloorData, hbad]

/-- C6 witness: a schema-less document leaves a previously stored
configuration untouched on both paths. -/
theorem c6_witness :
    (isFloorsDataValid allowedFields noSchemaDoc).1 = false
    ∧ handleSetFloorsConfigData allowedFields (some previousParsedData) (some noSchemaDoc)
        = some previousParsedData
    ∧ handleFetchResponseData allowedFields (some previousParsedData) (some noSchemaDoc)
        = some previousParsedData := by
  have hbad : (isFloorsDataValid allowedFields noSchemaDoc).1 = false := by decide
  exact ⟨hbad,
    (c6_invalidDataLeavesPreviousData allowedFields (some previousParsedData) noSchemaDoc
      hbad).1,
    (c6_invalidDataLeavesPreviousData allowedFields (some previousParsedData) noSchemaDoc
      hbad).2.1⟩

/-- C7 counterexample: the claim requires the rule value to be a finite number,
but the code checks `typeof floor === \x27number\x27`, which `Infinity`
satisfies: a document whose only rule maps to `Infinity` is accepted by
`isFloorsDataValid` although the claim (formalised as
`specFloorsDocAccepted`, with the finiteness requirement) rejects it. -/
theorem c7_counterexample :
    (isFloorsDataValid allowedFields infinityRuleDoc).1 = true
    ∧ specFloorsDocAccepted allowedFields infinityRuleDoc = false := by
  constructor
  · decide
  · decide

/-- C10 counterexample: a document with an unknown schema field and a values
map holding one valid and one invalid rule is returned by `isFloorsDataValid`
completely untouched — the schema check short-circuits before `validateRules`,
so the values map is not replaced although it mixes valid and invalid
rules. -/
theorem c10_counterexample :
    (isFloorsDataValid allowedFields badSchemaMixedRulesDoc).2 = badSchemaMixedRulesDoc
    ∧ badSchemaMixedRulesDoc.values
        = some [("x", JsVal.num 1), ("y", JsVal.str "bad")]
    ∧ isValidRule "x" (JsVal.num 1) 1 "|" = true
    ∧ isValidRule "y" (JsVal.str "bad") 1 "|" = false := by
  refine ⟨by decide, rfl, by decide, by decide⟩

/-- C10 (amended): for every floors document that passes schema-field
validation and whose values map holds at least one invalid rule,
`isFloorsDataValid` replaces the values map in place with exactly the valid
rules — validation mutates the document, and the stored values differ from the
input ones. -/
theorem c10_validationFiltersValuesInPlace (allowed : List String) (d : FloorsDoc)
    (vals : List (String × JsVal))
    (hfields : validateSchemaFields allowed (schemaFields d) = true)
    (hv : d.values = some vals)
    (hinv : ∃ kv ∈ vals, isValidRule kv.1 kv.2 ((schemaFields d).getD []).length
        (jsOrStr (schemaDelimiter d) "|") = false) :
    (isFloorsDataValid allowed d).2
      = { d with values := some (vals.filter (fun kv =>
            isValidRule kv.1 kv.2 ((schemaFields d).getD []).length
              (jsOrStr (schemaDelimiter d) "|"))) }
    ∧ (isFloorsDataValid allowed d).2.values ≠ some vals := by
  have hmain : (isFloorsDataValid allowed d).2
      = { d with values := some (vals.filter (fun kv =>
            isValidRule kv.1 kv.2 ((schemaFields d).getD []).length
              (jsOrStr (schemaDelimiter d) "|"))) } := by
    unfold isFloorsDataValid validateRules
    rw [hfields]
    simp [hv]
  refine ⟨hmain, ?_⟩
  rw [hmain]
  intro hcontra
  simp only [Option.some_inj] at hcontra
  have hall := List.filter_eq_self.mp hcontra
  rcases hinv with ⟨kv, hmem, hbadrule⟩
  have := hall kv hmem
  rw [hbadrule] at this
  exact Bool.false_ne_true this

/-- C10 witness: a valid-schema document with a valid and an invalid rule has
its values map replaced by the valid rule alone. -/
theorem c10_witness :
    validateSchemaFields allowedFields (schemaFields goodSchemaMixedRulesDoc) = true
    ∧ goodSchemaMixedRulesDoc.values
        = some [("banner", JsVal.num 1), ("bad|key", JsVal.num 2)]
    ∧ (isFloorsDataValid allowedFields goodSchemaMixedRulesDoc).2
        = { goodSchemaMixedRulesDoc with
            values := some ([("banner", JsVal.num 1), ("bad|key", JsVal.num 2)].filter
              (fun kv => isValidRule kv.1 kv.2
                ((schemaFields goodSchemaMixedRulesDoc).getD []).length
                (jsOrStr (schemaDelimiter goodSchemaMixedRulesDoc) "|"))) }
    ∧ (isFloorsDataValid allowedFields goodSchemaMixedRulesDoc).2.values
        ≠ some [("banner", JsVal.num 1), ("bad|key", JsVal.num 2)] := by
  have h := c10_validationFiltersValuesInPlace allowedFields goodSchemaMixedRulesDoc
    [("banner", JsVal.num 1), ("bad|key", JsVal.num 2)] (by decide) rfl
    ⟨("bad|key", JsVal.num 2), by decide, by decide⟩
  exact ⟨by decide, rfl, h.1, h.2⟩

/-- C7 (amended): `isFloorsDataValid` accepts a floors document exactly when
`schema.fields` is a non-empty array whose entries all belong to the allowed
set and at least one rule survives the per-rule check — key splitting by the
delimiter into `fields.length` segments and mapping to a value of number type
(`typeof`, hence including `NaN` and the infinities; invalid individual rules
are dropped without invalidating the document). -/
theorem c7_acceptanceCondition (allowed : List String) (d : FloorsDoc) :
    (isFloorsDataValid allowed d).1 = true ↔
      ∃ fs, schemaFields d = some fs ∧ fs ≠ [] ∧ (∀ f ∈ fs, f ∈ allowed) ∧
        ∃ vals, d.values = some vals ∧
          ∃ kv ∈ vals,
            (jsSplitStr kv.1 (jsOrStr (schemaDelimiter d) "|")).length = fs.length
            ∧ kv.2.isNumberType = true := by
  unfold isFloorsDataValid
  cases hsf : schemaFields d with
  | none => simp [validateSchemaFields]
  | some fs =>
    by_cases hok : validateSchemaFields allowed (some fs) = true
    · have hfs : fs ≠ [] ∧ ∀ f ∈ fs, f ∈ allowed := by
        unfold validateSchemaFields at hok
        simp only [Bool.and_eq_true, decide_eq_true_eq, List.all_eq_true] at hok
        refine ⟨List.ne_nil_of_length_pos hok.1, fun f hf => ?_⟩
        have h2 := hok.2 f hf
        simpa [List.contains, List.elem_iff] using h2
      rw [hok]
      simp only [Bool.not_true, Bool.false_eq_true, if_false]
      unfold validateRules
      cases hv : d.values with
      | none => simp
      | some vals =>
        simp only [Option.some.injEq, exists_eq_left', hfs.1, ne_eq,
          not_false_iff, true_and, decide_eq_true_eq, Option.getD_some]
        rw [gt_iff_lt, List.length_pos, Ne, List.filter_eq_nil_iff]
        push_neg
        simp only [isValidRule, Bool.and_eq_true, beq_iff_eq]
        constructor
        · rintro ⟨kv, hkv, h1, h2⟩
          exact ⟨hfs.2, kv, hkv, h1, h2⟩
        · rintro ⟨-, kv, hkv, h1, h2⟩
          exact ⟨kv, hkv, h1, h2⟩
    · rw [Bool.not_eq_true] at hok
      rw [hok]
      simp only [Bool.not_false, if_true]
      constructor
      · intro h
        exact absurd h (by simp)
      · rintro ⟨fs2, hfs2, hne, hall, _⟩
        rw [Option.some_inj] at hfs2
        subst hfs2
        unfold validateSchemaFields at hok
        simp only [Bool.and_eq_false_iff, decide_eq_false_iff_not, not_lt,
          Nat.le_zero, List.length_eq_zero, List.all_eq_false] at hok
        rcases hok with hnil | ⟨f, hf, hnc⟩
        · exact absurd hnil hne
        · exact absurd (hall f hf) (by simpa [List.contains, List.elem_iff] using hnc)

theorem getFirstMatchingFloor_noCache (fd : MatchFloorData) (bidObject : BidRequestObj)
    (mediaType0 : Option String) (size0 : SizeParam)
    (hfields : fd.fields ≠ []) (hcache : fd.matchingInputs = []) :
    getFirstMatchingFloor fd bidObject mediaType0 size0
      = { matchingFloor := jsOrQ ((ruleFound fd bidObject mediaType0 size0).bind
            (jsHashFind fd.values)) fd.defaultFloor,
          matchingData := (matchCandidates fd bidObject mediaType0 size0).head?,
          matchingRule := ruleFound fd bidObject mediaType0 size0 } := by
  have hne : (enumeratePossibleFieldValues fd.fields bidObject (jsOrStr mediaType0 "banner")
      (jsOrStr (parseGPTSingleSizeArray size0) "*")).isEmpty = false := by
    unfold enumeratePossibleFieldValues
    cases hf : fd.fields with
    | nil => exact absurd hf hfields
    | cons a rest => simp
  unfold getFirstMatchingFloor ruleFound matchCandidates fieldValuesOf
  rw [hcache]
  simp [hne]

/-- C9: when the most specific matching rule maps to the floor value 0 and the
table has no default, `getFirstMatchingFloor` reports no matching floor and
`getFloor` returns the empty result — at the public interface a matched floor
of exactly 0 is indistinguishable from no match. -/
theorem c9_zeroFloorLooksLikeNoMatch (env : FloorEnv) (afd : AuctionFloorData)
    (bid : BidRequestObj) (m : String) (w hgt : Nat) (params : GetFloorParams)
    (rule : String)
    (hskip : afd.skipped = false)
    (hfields : afd.data.fields ≠ []) (hcache : afd.data.matchingInputs = [])
    (hm : params.mediaType = some m) (hmne : m ≠ "*")
    (hsz : params.size = SizeParam.dims w hgt)
    (hrule : ruleFound afd.data bid (some m) (SizeParam.dims w hgt) = some rule)
    (hzero : jsHashFind afd.data.values rule = some 0)
    (hdef : afd.data.defaultFloor = none) :
    (getFirstMatchingFloor afd.data bid (some m) (SizeParam.dims w hgt)).matchingFloor = none
    ∧ getFloor env (some afd) bid params = none := by
  have h1 := getFirstMatchingFloor_noCache afd.data bid (some m) (SizeParam.dims w hgt)
    hfields hcache
  have hfloor : (getFirstMatchingFloor afd.data bid (some m)
      (SizeParam.dims w hgt)).matchingFloor = none := by
    rw [h1]
    simp [hrule, hzero, jsOrQ, hdef]
  refine ⟨hfloor, ?_⟩
  have hmt : (params.mediaType == some "*") = false := by
    rw [hm]
    simp [hmne]
  have hszs : (params.size == SizeParam.star) = false := by
    rw [hsz]
    simp
  have hpipe : (getFloorPipeline env afd bid params).1 = none := by
    unfold getFloorPipeline
    simp [hm, hsz, hmne, hfloor, qTruthy]
  simp only [getFloor, hskip, Bool.false_eq_true, if_false]
  simp [hpipe, qTruthy]

/-- C9 witness: a table whose banner rule is 0 with no default yields no
matching floor and an empty `getFloor` result. -/
theorem c9_witness :
    ruleFound zeroRuleNoDefaultFD.data sampleBid (some "banner")
        (SizeParam.dims 300 250) = some "banner"
    ∧ jsHashFind zeroRuleNoDefaultFD.data.values "banner" = some 0
    ∧ (getFirstMatchingFloor zeroRuleNoDefaultFD.data sampleBid (some "banner")
        (SizeParam.dims 300 250)).matchingFloor = none
    ∧ getFloor plainEnv (some zeroRuleNoDefaultFD) sampleBid bannerSizedParams = none := by
  have hrule : ruleFound zeroRuleNoDefaultFD.data sampleBid (some "banner")
      (SizeParam.dims 300 250) = some "banner" := by
    simp [ruleFound, matchCandidates, fieldValuesOf, zeroRuleNoDefaultFD, sampleBid,
      enumeratePossibleFieldValues, jsOrStr, parseGPTSingleSizeArray,
      generatePossibleEnumerations, rawEnumerations, sortByStar, insertByStar,
      starCount, jsHashFind, jsToLower]
  have hzero : jsHashFind zeroRuleNoDefaultFD.data.values "banner" = some 0 := by
    simp [jsHashFind, zeroRuleNoDefaultFD]
  have h := c9_zeroFloorLooksLikeNoMatch plainEnv zeroRuleNoDefaultFD sampleBid "banner"
    300 250 bannerSizedParams "banner" rfl (by decide) rfl rfl (by decide) rfl
    hrule hzero rfl
  exact ⟨hrule, hzero, h.1, h.2⟩

theorem jsObjInsert_append (l : List (String × JsVal)) (key : String) (v : JsVal)
    (h : l.any (fun p => p.1 == key) = false) :
    jsObjInsert l key v = l ++ [(key, v)] := by
  unfold jsObjInsert
  rw [h]
  simp

theorem foldl_jsObjInsert_map (kf : String × JsVal → String)
    (vals : List (String × JsVal)) :
    ∀ init : List (String × JsVal),
    (∀ kv ∈ vals, init.any (fun p => p.1 == kf kv) = false) →
    (vals.map kf).Nodup →
    vals.foldl (fun acc kv => jsObjInsert acc (kf kv) kv.2) init
      = init ++ vals.map (fun kv => (kf kv, kv.2)) := by
  induction vals with
  | nil =>
    intro init _ _
    simp
  | cons kv rest ih =>
    intro init hd hnd
    rw [List.foldl_cons, jsObjInsert_append _ _ _ (hd kv (by simp))]
    have hnd1 : kf kv ∉ rest.map kf ∧ (rest.map kf).Nodup :=
      List.nodup_cons.mp (by simpa using hnd)
    have hd2 : ∀ kv2 ∈ rest,
        (init ++ [(kf kv, kv.2)]).any (fun p => p.1 == kf kv2) = false := by
      intro kv2 hkv2
      rw [List.any_append]
      have h1 := hd kv2 (by simp [hkv2])
      have h2 : ([(kf kv, kv.2)]).any (fun p => p.1 == kf kv2) = false := by
        simp only [List.any_cons, List.any_nil, Bool.or_false]
        have hne : kf kv ≠ kf kv2 := by
          intro he
          exact hnd1.1 (by rw [he]; exact List.mem_map_of_mem kf hkv2)
        simpa using hne
      rw [h1, h2]
      rfl
    rw [ih (init ++ [(kf kv, kv.2)]) hd2 hnd1.2]
    simp

/-- C8 counterexample: when `adUnitCode` is already among the schema fields,
`getFloorsDataForAuction` does not prefix the rule keys with the ad-unit code:
a rule keyed `div2`, compiled with scope `div1`, keeps the key `div2` instead
of the claimed `div1|div2`. -/
theorem c8_counterexample :
    getFloorsDataForAuction adUnitFieldDoc (some "div1")
      = some { schema := some { fields := some ["adUnitCode"], delimiter := some "|" },
               values := some [("div2", JsVal.num 1)],
               currency := some "USD", modelVersion := none }
    ∧ (getFloorsDataForAuction adUnitFieldDoc (some "div1")).bind (fun d2 => d2.values)
        ≠ some [("div1|div2", JsVal.num 1)] := by
  constructor
  · decide
  · decide

/-- C8 (amended): compiling ad-unit-level floors data with a (truthy) ad-unit
code whose schema does not yet list `adUnitCode` prepends `adUnitCode` to the
field list and prefixes every rule key with the ad-unit code and the
delimiter, storing keys lower-cased (when `adUnitCode` is already a schema
field, the keys are left unprefixed — see the counterexample); in particular
fields `["mediaType"]` with rule key `banner` and scope `div1` compile to
fields `["adUnitCode", "mediaType"]` and key `div1|banner`. -/
theorem c8_adUnitScopedCompilation (doc : FloorsDoc) (schema : FloorSchema)
    (fields : List String) (vals : List (String × JsVal)) (a : String)
    (hs : doc.schema = some schema) (hf : schema.fields = some fields)
    (hv : doc.values = some vals)
    (hnot : fields.contains "adUnitCode" = false) (ha : a ≠ "")
    (hnd : (vals.map (fun kv =>
        jsToLower (a ++ jsOrStr schema.delimiter "|" ++ kv.1))).Nodup) :
    getFloorsDataForAuction doc (some a)
      = some { doc with
          schema := some { fields := some ("adUnitCode" :: fields),
                           delimiter := some (jsOrStr schema.delimiter "|") },
          values := some (vals.map (fun kv =>
            (jsToLower (a ++ jsOrStr schema.delimiter "|" ++ kv.1), kv.2))),
          currency := some (jsOrStr doc.currency "USD") } := by
  unfold getFloorsDataForAuction normalizeRulesForAuction
  rw [hs]
  simp only [hf, hv, jsTruthyOptStr, jsTemplateStr, Option.getD_some, hnot,
    Bool.not_false, Bool.and_true]
  have ha2 : (a == "") = false := by simpa using ha
  rw [ha2]
  simp only [Bool.not_false, if_true]
  rw [foldl_jsObjInsert_map (fun kv => jsToLower (a ++ jsOrStr schema.delimiter "|" ++ kv.1))
    vals [] (by simp) hnd]
  simp

/-- C8 witness: the specification example — fields `["mediaType"]`, rule
`banner`, scope `div1`. -/
theorem c8_witness :
    specScopingDoc.schema = some { fields := some ["mediaType"], delimiter := some "|" }
    ∧ (["mediaType"] : List String).contains "adUnitCode" = false
    ∧ ("div1" : String) ≠ ""
    ∧ getFloorsDataForAuction specScopingDoc (some "div1")
      = some { specScopingDoc with
          schema := some { fields := some ("adUnitCode" :: ["mediaType"]),
                           delimiter := some (jsOrStr (some "|") "|") },
          values := some ([("banner", JsVal.num 1)].map (fun kv =>
            (jsToLower ("div1" ++ jsOrStr (some "|") "|" ++ kv.1), kv.2))),
          currency := some (jsOrStr specScopingDoc.currency "USD") } :=
  ⟨rfl, by decide, by decide,
    c8_adUnitScopedCompilation specScopingDoc
      { fields := some ["mediaType"], delimiter := some "|" } ["mediaType"]
      [("banner", JsVal.num 1)] "div1" rfl rfl rfl (by decide) (by decide) (by decide)⟩

/-- C1 counterexample: the first candidate present in the table is the rule
`banner`, whose floor is 0 — yet `getFirstMatchingFloor` does not return that
floor: the JS `||` treats 0 as falsy and falls back to the table default 5. -/
theorem c1_counterexample :
    (getFirstMatchingFloor zeroRuleDefaultFD sampleBid (some "banner")
        SizeParam.star).matchingRule = some "banner"
    ∧ jsHashFind zeroRuleDefaultFD.values "banner" = some 0
    ∧ (getFirstMatchingFloor zeroRuleDefaultFD sampleBid (some "banner")
        SizeParam.star).matchingFloor = some 5 := by
  have hrule : ruleFound zeroRuleDefaultFD sampleBid (some "banner") SizeParam.star
      = some "banner" := by
    simp [ruleFound, matchCandidates, fieldValuesOf, zeroRuleDefaultFD, sampleBid,
      enumeratePossibleFieldValues, jsOrStr, parseGPTSingleSizeArray,
      generatePossibleEnumerations, rawEnumerations, sortByStar, insertByStar,
      starCount, jsHashFind, jsToLower]
  have hnc := getFirstMatchingFloor_noCache zeroRuleDefaultFD sampleBid (some "banner")
    SizeParam.star (by decide) rfl
  refine ⟨?_, ?_, ?_⟩
  · rw [hnc]
    exact hrule
  · simp [jsHashFind, zeroRuleDefaultFD]
  · rw [hnc]
    show jsOrQ ((ruleFound zeroRuleDefaultFD sampleBid (some "banner") SizeParam.star).bind
      (jsHashFind zeroRuleDefaultFD.values)) zeroRuleDefaultFD.defaultFloor = some 5
    rw [hrule]
    simp [jsHashFind, jsOrQ, zeroRuleDefaultFD]

/-- C1 (amended): for every floor table with a non-empty schema and every
match context (fresh, without a memoised entry), the candidate list produced
by `generatePossibleEnumerations` is ordered by ascending wildcard count, is a
permutation of the cartesian expansion, and keeps the cartesian-generation
order inside every wildcard-count class; `getFirstMatchingFloor` picks the
first candidate present in the table as the matching rule and returns its
floor provided that floor is non-zero (a zero floor falls through to the table
default via `||`); hence the matched rule never has more wildcards than any
other candidate also present in the table. -/
theorem c1_candidateOrderAndFirstMatch (fd : MatchFloorData) (bidObject : BidRequestObj)
    (mediaType0 : Option String) (size0 : SizeParam)
    (hfields : fd.fields ≠ []) (hcache : fd.matchingInputs = []) :
    (matchCandidates fd bidObject mediaType0 size0).Pairwise StarLE
    ∧ List.Perm (matchCandidates fd bidObject mediaType0 size0)
        (rawEnumerations (fieldValuesOf fd bidObject mediaType0 size0)
          (jsOrStr fd.delimiter "|"))
    ∧ (∀ k : Nat, (matchCandidates fd bidObject mediaType0 size0).filter
          (fun s => starCount s == k)
        = (rawEnumerations (fieldValuesOf fd bidObject mediaType0 size0)
            (jsOrStr fd.delimiter "|")).filter (fun s => starCount s == k))
    ∧ (getFirstMatchingFloor fd bidObject mediaType0 size0).matchingRule
        = (matchCandidates fd bidObject mediaType0 size0).find?
            (fun hashValue => (jsHashFind fd.values hashValue).isSome)
    ∧ (∀ rule q, (getFirstMatchingFloor fd bidObject mediaType0 size0).matchingRule
          = some rule →
        jsHashFind fd.values rule = some q → q ≠ 0 →
        (getFirstMatchingFloor fd bidObject mediaType0 size0).matchingFloor = some q)
    ∧ (∀ rule, (getFirstMatchingFloor fd bidObject mediaType0 size0).matchingRule
          = some rule →
        ∀ other ∈ matchCandidates fd bidObject mediaType0 size0,
          (jsHashFind fd.values other).isSome = true →
          starCount rule ≤ starCount other) := by
  have hnc := getFirstMatchingFloor_noCache fd bidObject mediaType0 size0 hfields hcache
  refine ⟨pairwise_sortByStar _, sortByStar_perm _,
    fun k => filter_star_sortByStar _ k, ?_, ?_, ?_⟩
  · rw [hnc]
    rfl
  · intro rule q hr hq hq0
    rw [hnc] at hr ⊢
    simp only at hr ⊢
    rw [hr]
    simp only [Option.some_bind, hq, jsOrQ]
    simp [hq0]
  · intro rule hr other hother hpother
    rw [hnc] at hr
    simp only at hr
    exact find?_starCount_min (pairwise_sortByStar _) hr other hother hpother

/-- C1 witness: the ordering and first-match properties at a concrete
one-field table. -/
theorem c1_witness :
    zeroRuleNoDefaultFD.data.fields ≠ []
    ∧ zeroRuleNoDefaultFD.data.matchingInputs = []
    ∧ (matchCandidates zeroRuleNoDefaultFD.data sampleBid (some "banner")
        SizeParam.star).Pairwise StarLE
    ∧ (getFirstMatchingFloor zeroRuleNoDefaultFD.data sampleBid (some "banner")
        SizeParam.star).matchingRule
      = (matchCandidates zeroRuleNoDefaultFD.data sampleBid (some "banner")
          SizeParam.star).find?
          (fun hashValue => (jsHashFind zeroRuleNoDefaultFD.data.values hashValue).isSome) := by
  have h := c1_candidateOrderAndFirstMatch zeroRuleNoDefaultFD.data sampleBid
    (some "banner") SizeParam.star (by decide) rfl
  exact ⟨by decide, rfl, h.1, h.2.2.2.1⟩

theorem shouldFloorBid_iff (fd : AuctionFloorData) (floorInfo : MatchResult)
    (bid : BidResponse) (adj f : ℚ)
    (hcpm : bid.floorData.bind (fun m => m.cpmAfterAdjustments) = some adj)
    (hfloor : floorInfo.matchingFloor = some f) :
    shouldFloorBid fd floorInfo bid = true ↔
      (fd.enforcement.enforceJS ≠ some false ∧ adj < f
        ∧ (fd.enforcement.floorDeals = some true
            ∨ jsTruthyOptStr bid.dealId = false)) := by
  unfold shouldFloorBid
  rw [hcpm, hfloor]
  simp only [Bool.and_eq_true, Bool.or_eq_true, Bool.not_eq_true', beq_iff_eq,
    beq_eq_false_iff_ne, ne_eq, decide_eq_true_eq, Bool.not_eq_true]

/-- C2: with active (non-skipped) floor data, a matching original bid request,
a resolvable (truthy) floor and a determinable comparison cpm,
`addBidResponseHook` forwards a replacement bid of cpm 0 with rejected status
— preserving the floor metadata, width, height, media type, currency and the
original-currency fields — exactly when `enforceJS` is not `false`, the
currency-determined bidder-adjusted cpm is strictly below the matched floor,
and `floorDeals` is `true` or the bid carries no deal id; otherwise the
original bid (annotated with its floor metadata) is forwarded with its cpm and
all other fields intact. -/
theorem c2_enforcementRejectIff (env : FloorEnv) (fd : AuctionFloorData)
    (br : BidderRequest) (bid : BidResponse) (req : BidRequestObj)
    (f q : ℚ) (md : String)
    (hskip : fd.skipped = false)
    (hfind : br.bids.find? (fun bidRequest =>
        jsTruthyOptStr bidRequest.bidId && bidRequest.bidId == bid.requestId) = some req)
    (hfloor : (responseFloorInfo fd req bid).matchingFloor = some f) (hf0 : f ≠ 0)
    (hdata : (responseFloorInfo fd req bid).matchingData = some md)
    (hcpm : determineBaseCpm env fd bid = some (some q)) :
    ((∃ b, addBidResponseHook env (some fd) br bid = some (HookOutcome.reject b)
        ∧ b.cpm = 0 ∧ b.status = some BID_REJECTED
        ∧ b.floorData = addFloorDataToBid fd (responseFloorInfo fd req bid)
            (some (getBiddersCpmAdjustment env bid.bidderCode q))
        ∧ b.width = bid.width ∧ b.height = bid.height ∧ b.mediaType = bid.mediaType
        ∧ b.currency = bid.currency ∧ b.originalCpm = bid.originalCpm
        ∧ b.originalCurrency = bid.originalCurrency)
      ↔ (fd.enforcement.enforceJS ≠ some false
          ∧ getBiddersCpmAdjustment env bid.bidderCode q < f
          ∧ (fd.enforcement.floorDeals = some true
              ∨ jsTruthyOptStr bid.dealId = false)))
    ∧ (¬ (fd.enforcement.enforceJS ≠ some false
          ∧ getBiddersCpmAdjustment env bid.bidderCode q < f
          ∧ (fd.enforcement.floorDeals = some true
              ∨ jsTruthyOptStr bid.dealId = false)) →
        addBidResponseHook env (some fd) br bid
          = some (HookOutcome.forward { bid with
              floorData := (addFloorDataToBid fd (responseFloorInfo fd req bid)
                (some (getBiddersCpmAdjustment env bid.bidderCode q))) })) := by
  have hqt : (!qTruthy (responseFloorInfo fd req bid).matchingFloor) = false := by
    rw [hfloor]
    simp [qTruthy, hf0]
  have hmeta : addFloorDataToBid fd (responseFloorInfo fd req bid)
      (some (getBiddersCpmAdjustment env bid.bidderCode q))
      = some { floorValue := (responseFloorInfo fd req bid).matchingFloor,
               floorRule := (responseFloorInfo fd req bid).matchingRule,
               floorCurrency := fd.data.currency,
               cpmAfterAdjustments := some (getBiddersCpmAdjustment env bid.bidderCode q),
               enforcements := fd.enforcement,
               matchedFields := fd.data.fields.enum.map
                 (fun p => (p.2, (jsSplit md fd.data.delimiter).get? p.1)) } := by
    unfold addFloorDataToBid
    rw [hdata]
  have hhook : addBidResponseHook env (some fd) br bid
      = (if shouldFloorBid fd (responseFloorInfo fd req bid)
            { bid with floorData := (addFloorDataToBid fd (responseFloorInfo fd req bid)
                (some (getBiddersCpmAdjustment env bid.bidderCode q))) } then
          some (HookOutcome.reject { createBid req with
            floorData := (addFloorDataToBid fd (responseFloorInfo fd req bid)
              (some (getBiddersCpmAdjustment env bid.bidderCode q))),
            width := bid.width, height := bid.height, mediaType := bid.mediaType,
            currency := bid.currency, originalCpm := bid.originalCpm,
            originalCurrency := bid.originalCurrency,
            getCpmInNewCurrency := bid.getCpmInNewCurrency,
            status := some BID_REJECTED, cpm := 0 })
        else some (HookOutcome.forward { bid with
          floorData := (addFloorDataToBid fd (responseFloorInfo fd req bid)
            (some (getBiddersCpmAdjustment env bid.bidderCode q))) })) := by
    unfold addBidResponseHook
    rw [hfind]
    simp only [hskip, Bool.false_eq_true, if_false]
    rw [show getFirstMatchingFloor fd.data req bid.mediaType
        (SizeParam.dims bid.width bid.height) = responseFloorInfo fd req bid from rfl]
    rw [hqt]
    simp only [Bool.false_eq_true, if_false, hcpm]
    rw [show ((some q).map (fun q2 => getBiddersCpmAdjustment env bid.bidderCode q2))
        = some (getBiddersCpmAdjustment env bid.bidderCode q) from rfl]
    rw [hmeta]
  have hcpm2 : ({ bid with floorData := (addFloorDataToBid fd (responseFloorInfo fd req bid)
      (some (getBiddersCpmAdjustment env bid.bidderCode q))) } : BidResponse).floorData.bind
        (fun m => m.cpmAfterAdjustments)
      = some (getBiddersCpmAdjustment env bid.bidderCode q) := by
    rw [show ({ bid with floorData := (addFloorDataToBid fd (responseFloorInfo fd req bid)
      (some (getBiddersCpmAdjustment env bid.bidderCode q))) } : BidResponse).floorData
        = addFloorDataToBid fd (responseFloorInfo fd req bid)
            (some (getBiddersCpmAdjustment env bid.bidderCode q)) from rfl]
    rw [hmeta]
    rfl
  have hiff := shouldFloorBid_iff fd (responseFloorInfo fd req bid)
    { bid with floorData := (addFloorDataToBid fd (responseFloorInfo fd req bid)
        (some (getBiddersCpmAdjustment env bid.bidderCode q))) }
    (getBiddersCpmAdjustment env bid.bidderCode q) f hcpm2 hfloor
  by_cases hC : fd.enforcement.enforceJS ≠ some false
      ∧ getBiddersCpmAdjustment env bid.bidderCode q < f
      ∧ (fd.enforcement.floorDeals = some true ∨ jsTruthyOptStr bid.dealId = false)
  · have hsb := hiff.mpr hC
    rw [hsb, if_pos rfl] at hhook
    constructor
    · constructor
      · intro _
        exact hC
      · intro _
        refine ⟨_, hhook, rfl, rfl, rfl, rfl, rfl, rfl, rfl, rfl, rfl⟩
    · intro hnC
      exact absurd hC hnC
  · have hsb : shouldFloorBid fd (responseFloorInfo fd req bid)
        { bid with floorData := (addFloorDataToBid fd (responseFloorInfo fd req bid)
            (some (getBiddersCpmAdjustment env bid.bidderCode q))) } = false := by
      rw [Bool.eq_false_iff]
      intro htrue
      exact hC (hiff.mp htrue)
    rw [hsb, if_neg Bool.false_ne_true] at hhook
    constructor
    · constructor
      · rintro ⟨b, hb, -⟩
        rw [hhook] at hb
        simp at hb
      · intro h
        exact absurd h hC
    · intro _
      exact hhook

/-- C2 witness: the enforcement example — a deal-free banner bid of cpm 0.5
against a matched floor of 1 with default enforcement is replaced by a
rejected zero-cpm bid. -/
theorem c2_witness :
    bannerOneFD.skipped = false
    ∧ sampleBidderRequest.bids.find? (fun bidRequest =>
        jsTruthyOptStr bidRequest.bidId && bidRequest.bidId == halfCpmBid.requestId)
      = some sampleBid
    ∧ (responseFloorInfo bannerOneFD sampleBid halfCpmBid).matchingFloor = some 1
    ∧ (responseFloorInfo bannerOneFD sampleBid halfCpmBid).matchingData = some "banner"
    ∧ determineBaseCpm plainEnv bannerOneFD halfCpmBid = some (some (1 / 2))
    ∧ ∃ b, addBidResponseHook plainEnv (some bannerOneFD) sampleBidderRequest halfCpmBid
        = some (HookOutcome.reject b)
        ∧ b.cpm = 0 ∧ b.status = some BID_REJECTED := by
  have hfind : sampleBidderRequest.bids.find? (fun bidRequest =>
      jsTruthyOptStr bidRequest.bidId && bidRequest.bidId == halfCpmBid.requestId)
      = some sampleBid := rfl
  have hfloor : (responseFloorInfo bannerOneFD sampleBid halfCpmBid).matchingFloor
      = some 1 := by decide
  have hdata : (responseFloorInfo bannerOneFD sampleBid halfCpmBid).matchingData
      = some "banner" := by decide
  have hcpm : determineBaseCpm plainEnv bannerOneFD halfCpmBid = some (some (1 / 2)) := rfl
  have h := c2_enforcementRejectIff plainEnv bannerOneFD sampleBidderRequest halfCpmBid
    sampleBid 1 (1 / 2) "banner" rfl hfind hfloor one_ne_zero hdata hcpm
  have hadj : getBiddersCpmAdjustment plainEnv halfCpmBid.bidderCode (1 / 2) = 1 / 2 := rfl
  have hC : bannerOneFD.enforcement.enforceJS ≠ some false
      ∧ getBiddersCpmAdjustment plainEnv halfCpmBid.bidderCode (1 / 2) < 1
      ∧ (bannerOneFD.enforcement.floorDeals = some true
          ∨ jsTruthyOptStr halfCpmBid.dealId = false) := by
    refine ⟨by decide, ?_, Or.inr rfl⟩
    rw [hadj]
    norm_num
  obtain ⟨b, hb, h1, h2, _⟩ := (h.1).mpr hC
  exact ⟨rfl, hfind, hfloor, hdata, hcpm, b, hb, h1, h2⟩

end PriceFloors
